import Mathlib

/-!
Shallow embedding of src/cmorph_downloader_v3.py.

The Python program drives HTTP requests and the local filesystem. The
embedding makes those effects explicit:

  * a HEAD request (requests.head in get_remote_file_size) is modelled by a
    value of type HeadResult: either an exception, or a response carrying a
    status code and an optional content-length header;
  * the local file at a given path is modelled by an Option Nat: none when
    the file does not exist, some sz when it exists with byte length sz;
  * each iteration of the retry loop of download_file consumes one
    AttemptEv describing what the GET request of that iteration did
    (raised an exception, returned 404, or streamed a body to disk), with
    the HEAD response of the post-download verification attached to the
    streamed case;
  * os.remove success or failure is an explicit Bool oracle.

Machine integers are modelled as Nat or Int (the -1 sentinel of
get_remote_file_size forces Int there). All definitions are executable.
-/

namespace Cmorph

/-- Outcome of the HEAD request issued by get_remote_file_size: either the
request raised an exception, or it produced a response with a status code
and an optional content-length header value. -/
inductive HeadResult where
  | exn : HeadResult
  | resp (status : Nat) (contentLength : Option Nat) : HeadResult
deriving Repr, DecidableEq

/-- Embedding of get_remote_file_size (lines 31-45). On status 200 it reads
the content-length header with default 0; on 404 or any other status, and
on an exception, it returns the sentinel -1. -/
def get_remote_file_size (r : HeadResult) : Int :=
  match r with
  | .exn => -1
  | .resp status contentLength =>
    if status = 200 then ((contentLength.getD 0 : Nat) : Int)
    else if status = 404 then -1
    else -1

/-- Embedding of check_file_integrity (lines 47-62). localSize is none when
the local file does not exist, some sz when it exists with sz bytes. -/
def check_file_integrity (head : HeadResult) (localSize : Option Nat) : Bool :=
  match localSize with
  | none => false
  | some local_size =>
    let remote_size := get_remote_file_size head
    if remote_size = -1 then true
    else if remote_size ≠ (local_size : Int) then false
    else true

/-- What one iteration of the retry loop of download_file observes from the
GET request:
  * raised pw: requests.get, raise_for_status, or the streaming write
    raised an exception; pw is none when nothing was written (get or
    raise_for_status failed) and some n when the write was interrupted
    after n bytes (the partly written file stays on disk);
  * notFound: status 404, a terminal failure;
  * streamed written head: the body was fully streamed, leaving a file of
    written bytes; head is the HEAD response consulted by the subsequent
    check_file_integrity call when check_size is enabled. -/
inductive AttemptEv where
  | raised (pw : Option Nat) : AttemptEv
  | notFound : AttemptEv
  | streamed (written : Nat) (head : HeadResult) : AttemptEv
deriving Repr, DecidableEq

/-- Result of a download_file call: the returned boolean, the final state
of the local file, and how many GET attempts were made. -/
structure FetchResult where
  ok : Bool
  finalLocal : Option Nat
  attempts : Nat
deriving Repr, DecidableEq

/-- The while loop of download_file (lines 87-132). retries mirrors the
Python counter, file the local file state, att the number of GET attempts
made so far. The events list is the oracle for successive iterations; an
exhausted oracle ends the run with false (with enough events this case is
never reached, since each iteration either returns or consumes an event).
When max_retries = 0 the Python loop body never runs and the function
falls off the end returning None, which is falsy; the embedding returns
false there. -/
def dlLoop (max_retries : Nat) (check_size : Bool) :
    List AttemptEv → Nat → Option Nat → Nat → FetchResult
  | [], _, file, att => ⟨false, file, att⟩
  | ev :: rest, retries, file, att =>
    if retries < max_retries then
      match ev with
      | .notFound => ⟨false, file, att + 1⟩
      | .raised pw =>
        let file1 := match pw with | none => file | some n => some n
        if retries + 1 < max_retries then
          dlLoop max_retries check_size rest (retries + 1) file1 (att + 1)
        else ⟨false, file1, att + 1⟩
      | .streamed written head =>
        if check_size then
          if check_file_integrity head (some written) then ⟨true, some written, att + 1⟩
          else if retries < max_retries - 1 then
            dlLoop max_retries check_size rest (retries + 1) (some written) (att + 1)
          else ⟨false, some written, att + 1⟩
        else ⟨true, some written, att + 1⟩
    else ⟨false, file, att⟩

/-- Embedding of download_file (lines 64-132). headPre is the HEAD response
consulted by the pre-download integrity check when the file already exists
and check_size is enabled; removeOk tells whether the os.remove of an
invalid pre-existing file succeeds; evs feeds the retry loop. -/
def download_file (headPre : HeadResult) (localSize : Option Nat) (removeOk : Bool)
    (evs : List AttemptEv) (max_retries : Nat) (check_size : Bool) : FetchResult :=
  match localSize with
  | some sz =>
    if check_size then
      if check_file_integrity headPre (some sz) then ⟨true, some sz, 0⟩
      else if removeOk then dlLoop max_retries check_size evs 0 none 0
      else ⟨false, some sz, 0⟩
    else ⟨true, some sz, 0⟩
  | none => dlLoop max_retries check_size evs 0 none 0

/-- Left pad of the decimal rendering of n with zeros to width w, as the
Python format specifier 0wd does for nonnegative arguments. -/
def padNum (w : Nat) (n : Nat) : String :=
  let s := toString n
  String.mk (List.replicate (w - s.length) '0') ++ s

/-- The BASE_URL constant (line 22). -/
def BASE_URL : String :=
  "https://www.ncei.noaa.gov/data/cmorph-high-resolution-global-precipitation-estimates/access/30min/8km"

/-- The OUTPUT_DIR constant (line 25). -/
def OUTPUT_DIR : String := "CMORPH_Data"

/-- The date_str built at line 137 and line 200. -/
def date_str (year month day : Nat) : String :=
  padNum 4 year ++ padNum 2 month ++ padNum 2 day

/-- The per-file name built at line 153 and line 206. -/
def file_name (year month day hour : Nat) : String :=
  "CMORPH_V1.0_ADJ_8km-30min_" ++ date_str year month day ++ padNum 2 hour ++ ".nc"

/-- The per-day URL built at line 144 and line 208. -/
def day_url (year month day : Nat) : String :=
  BASE_URL ++ "/" ++ padNum 4 year ++ "/" ++ padNum 2 month ++ "/" ++ padNum 2 day ++ "/"

/-- The per-file URL built at line 154 and line 209. -/
def file_url (year month day hour : Nat) : String :=
  day_url year month day ++ file_name year month day hour

/-- The year month directory built at line 140 and line 202; os.path.join
with the forward slash separator. -/
def year_month_dir (year month : Nat) : String :=
  OUTPUT_DIR ++ "/" ++ padNum 4 year ++ "/" ++ padNum 2 month

/-- The local file path built at line 155 and line 207. -/
def local_file_path (year month day hour : Nat) : String :=
  year_month_dir year month ++ "/" ++ file_name year month day hour

/-- Modelled from the spec: the URL template of section 6, a fixed base
path plus year, month, day directories and the per-file name, every
numeric field zero padded (year to 4 digits, month, day and hour to 2).
This definition follows the words of the spec and is compared with the
source-derived file_url in the C8 theorem. -/
def specTemplateURL (year month day hour : Nat) : String :=
  BASE_URL ++ "/" ++ padNum 4 year ++ "/" ++ padNum 2 month ++ "/" ++ padNum 2 day ++ "/" ++
    "CMORPH_V1.0_ADJ_8km-30min_" ++ padNum 4 year ++ padNum 2 month ++ padNum 2 day ++
    padNum 2 hour ++ ".nc"

/-- The failure record dictionary built at lines 182-187. -/
structure FailureRecord where
  date : String
  hour : Nat
  url : String
  local_path : String
deriving Repr, DecidableEq

/-- The formatted date of a failure record (line 183). -/
def dashDate (year month day : Nat) : String :=
  padNum 4 year ++ "-" ++ padNum 2 month ++ "-" ++ padNum 2 day

/-- Builds the failure record appended at lines 182-187. -/
def mkFailureRecord (year month day hour : Nat) : FailureRecord :=
  ⟨dashDate year month day, hour, file_url year month day hour,
    local_file_path year month day hour⟩

/-- The latest files selection of download_day (lines 159-164): the hours
whose local file exists, and, when at least two exist, the two with the
highest hour value (sorted descending, first two). The existing list is
built in ascending hour order from range 24, so the stable descending sort
of the Python code is its reverse. -/
def latestTwo (fs : Nat → Option Nat) : List Nat :=
  let existing := (List.range 24).filter (fun h => (fs h).isSome)
  if 2 ≤ existing.length then existing.reverse.take 2 else []

/-- The check_latest phase of download_day (lines 158-174): each selected
hour is integrity checked against its own HEAD response; a failing one is
removed when the removal succeeds (a failing os.remove is logged and
swallowed, the file stays). Every other hour keeps its state. The selected
files all exist and previous removals touch other paths only, so the per
hour formulation matches the sequential Python loop. -/
def checkLatestPhase (fs : Nat → Option Nat) (headCheck : Nat → HeadResult)
    (removeOk : Nat → Bool) : Nat → Option Nat :=
  fun h =>
    if (latestTwo fs).contains h
        && !check_file_integrity (headCheck h) (fs h)
        && removeOk h
    then none else fs h

/-- The fetch pass of download_day (lines 177-187): one download_file call
per hour of range 24 with max_retries 3 and check_size enabled, counting
successes and appending one failure record per failed hour. The oracles
are per hour: headPre and evs feed the download_file call of that hour,
removeOk its pre-download deletion. -/
def fetchPass (year month day : Nat) (fs : Nat → Option Nat) (headPre : Nat → HeadResult)
    (removeOk : Nat → Bool) (evs : Nat → List AttemptEv) : Nat × List FailureRecord :=
  (List.range 24).foldl
    (fun acc hour =>
      if (download_file (headPre hour) (fs hour) (removeOk hour) (evs hour) 3 true).ok
      then (acc.1 + 1, acc.2)
      else (acc.1, acc.2 ++ [mkFailureRecord year month day hour]))
    (0, [])

/-- Embedding of download_day (lines 134-189): the optional check_latest
phase over the initial filesystem, then the fetch pass over the resulting
filesystem. -/
def download_day (year month day : Nat) (check_latest : Bool)
    (fs : Nat → Option Nat) (headCheck : Nat → HeadResult) (removeCheck : Nat → Bool)
    (headPre : Nat → HeadResult) (removeOk : Nat → Bool) (evs : Nat → List AttemptEv) :
    Nat × List FailureRecord :=
  let fs2 := if check_latest then checkLatestPhase fs headCheck removeCheck else fs
  fetchPass year month day fs2 headPre removeOk evs

/-- A calendar date, standing for one value of current_date in the scan
loop of check_data_completeness. -/
structure Date where
  year : Nat
  month : Nat
  day : Nat
deriving Repr, DecidableEq

/-- One entry of the missing_hours list built at lines 219-224. -/
structure SlotEntry where
  hour : Nat
  url : String
  local_path : String
  reason : String
deriving Repr, DecidableEq

/-- One entry of the missing_data list built at lines 227-230. -/
structure DayReport where
  date : String
  missing_hours : List SlotEntry
deriving Repr, DecidableEq

/-- The per-day body of check_data_completeness (lines 204-224): for each
hour, existence check, then integrity check when the file exists and
verify_size is on; a slot enters the report tagged missing when absent and
invalid_size when present but failing the integrity check. -/
def scanDay (d : Date) (fs : Nat → Option Nat) (heads : Nat → HeadResult)
    (verify_size : Bool) : List SlotEntry :=
  (List.range 24).filterMap fun hour =>
    let file_exists := (fs hour).isSome
    let file_valid :=
      if file_exists && verify_size then check_file_integrity (heads hour) (fs hour) else true
    if !file_exists || !file_valid then
      some ⟨hour, file_url d.year d.month d.day hour,
            local_file_path d.year d.month d.day hour,
            if !file_exists then "missing" else "invalid_size"⟩
    else none

/-- Embedding of check_data_completeness (lines 191-234). The while loop
from start_date to end_date visits a list of consecutive days; the
embedding takes that visited list as the days argument, with per day and
per hour filesystem and HEAD oracles. A day contributes a report entry
exactly when its missing_hours list is nonempty. The function reads the
oracles and returns only the report, so it mutates neither the filesystem
nor remote state by construction. -/
def check_data_completeness (days : List Date) (fs : Date → Nat → Option Nat)
    (heads : Date → Nat → HeadResult) (verify_size : Bool) : List DayReport :=
  days.filterMap fun d =>
    if (scanDay d (fs d) (heads d) verify_size).isEmpty then none
    else some ⟨dashDate d.year d.month d.day, scanDay d (fs d) (heads d) verify_size⟩

/-- Embedding of save_failed_downloads (lines 236-245). The report file
state is Option (List FailureRecord): none when absent, some contents when
present. A nonempty failure list overwrites the file; an empty one deletes
the file when it exists and leaves the absent state alone otherwise. -/
def save_failed_downloads (failed_files : List FailureRecord)
    (report : Option (List FailureRecord)) : Option (List FailureRecord) :=
  if failed_files.isEmpty = false then some failed_files
  else if report.isSome then none
  else report

/-- A HEAD result consistent with a remote file of true byte length n: the
request may fail in any way, but a status 200 response reports the true
content length. Used to state the C2 claim. -/
def headTruthful (n : Nat) : HeadResult → Bool
  | .exn => true
  | .resp status contentLength => if status = 200 then contentLength = some n else true

/-- A HEAD result that succeeded and reported exactly n bytes. -/
def headExact (n : Nat) : HeadResult → Bool
  | .exn => false
  | .resp status contentLength => status = 200 && contentLength = some n

/-- Holds when the verification HEAD of every streamed attempt event
succeeded and reported exactly n bytes. -/
def evsHeadExact (n : Nat) (evs : List AttemptEv) : Bool :=
  evs.all fun ev =>
    match ev with
    | .streamed _ head => headExact n head
    | _ => true

/-- C1: check_file_integrity returns false when the local file does not
exist; returns true when the HEAD request raises, returns 404, or returns
any non-200 status (optimistic fallback); and when the HEAD succeeds with
status 200, returns true exactly when the reported remote byte length (the
content-length header, defaulting to 0) equals the local byte length. -/
theorem c1_check_file_integrity_spec :
    (∀ head : HeadResult, check_file_integrity head none = false)
  ∧ (∀ sz : Nat, check_file_integrity .exn (some sz) = true)
  ∧ (∀ sz : Nat, ∀ cl : Option Nat, check_file_integrity (.resp 404 cl) (some sz) = true)
  ∧ (∀ sz s : Nat, ∀ cl : Option Nat, s ≠ 200 →
      check_file_integrity (.resp s cl) (some sz) = true)
  ∧ (∀ sz : Nat, ∀ cl : Option Nat,
      (check_file_integrity (.resp 200 cl) (some sz) = true ↔ cl.getD 0 = sz)) := by
  refine ⟨fun head => rfl, fun sz => rfl, fun sz cl => by simp [check_file_integrity,
    get_remote_file_size], fun sz s cl hs => ?_, fun sz cl => ?_⟩
  · simp [check_file_integrity, get_remote_file_size, hs]
  · have hne : ¬((cl.getD 0 : Nat) : Int) = -1 := by omega
    simp only [check_file_integrity, get_remote_file_size, if_pos rfl, hne, if_false,
      ite_not, if_true]
    constructor
    · intro h
      by_cases hce : ((cl.getD 0 : Nat) : Int) = (sz : Int)
      · exact_mod_cast hce
      · simp [hce] at h
    · intro h
      simp [h]

/-- Witness for C1 at concrete inputs: nonexistent file, status 500, and a
matching 200 response with content length 7 against a 7 byte file. -/
theorem c1_check_file_integrity_spec_witness :
    check_file_integrity .exn none = false
  ∧ check_file_integrity (.resp 500 none) (some 7) = true
  ∧ (check_file_integrity (.resp 200 (some 7)) (some 7) = true ↔
      (some (7 : Nat)).getD 0 = 7) := by
  obtain ⟨h1, _, _, h4, h5⟩ := c1_check_file_integrity_spec
  exact ⟨h1 .exn, h4 7 500 none (by decide), h5 7 (some 7)⟩

/-- C10: a 200 response with no content-length header makes
get_remote_file_size return 0 rather than the -1 sentinel, so
check_file_integrity returns false for every existing local file of
nonzero length instead of the optimistic true reserved for metadata
failures. -/
theorem c10_missing_content_length :
    get_remote_file_size (.resp 200 none) = 0
  ∧ get_remote_file_size (.resp 200 none) ≠ -1
  ∧ (∀ sz : Nat, sz ≠ 0 → check_file_integrity (.resp 200 none) (some sz) = false) := by
  refine ⟨rfl, by decide, fun sz hsz => ?_⟩
  have : ¬((0 : Int) = (sz : Int)) := by omega
  simp [check_file_integrity, get_remote_file_size, this]

/-- Witness for C10 at a 5 byte local file. -/
theorem c10_missing_content_length_witness :
    check_file_integrity (.resp 200 none) (some 5) = false :=
  c10_missing_content_length.2.2 5 (by decide)

/-- C5: when the local file already exists, download_file with check_size
enabled skips with true and zero transfer attempts on a positive integrity
check; on a negative integrity check it deletes the file and runs the
download loop from a clean state when the deletion succeeds, and returns
false with zero transfer attempts when the deletion fails; with check_size
disabled, existence alone yields true with zero transfer attempts. -/
theorem c5_preexisting_file (headPre : HeadResult) (sz : Nat) (removeOk : Bool)
    (evs : List AttemptEv) (mr : Nat) :
    (check_file_integrity headPre (some sz) = true →
      download_file headPre (some sz) removeOk evs mr true = ⟨true, some sz, 0⟩)
  ∧ (check_file_integrity headPre (some sz) = false →
      download_file headPre (some sz) true evs mr true = dlLoop mr true evs 0 none 0)
  ∧ (check_file_integrity headPre (some sz) = false →
      download_file headPre (some sz) false evs mr true = ⟨false, some sz, 0⟩)
  ∧ download_file headPre (some sz) removeOk evs mr false = ⟨true, some sz, 0⟩ := by
  refine ⟨fun hok => ?_, fun hbad => ?_, fun hbad => ?_, ?_⟩
  · simp [download_file, hok]
  · simp [download_file, hbad]
  · simp [download_file, hbad]
  · simp [download_file]

/-- Witness for C5: a matching size skips, a mismatching size with failing
removal aborts with false. -/
theorem c5_preexisting_file_witness :
    (check_file_integrity (.resp 200 (some 9)) (some 9) = true
      ∧ download_file (.resp 200 (some 9)) (some 9) true [] 4 true = ⟨true, some 9, 0⟩)
  ∧ (check_file_integrity (.resp 200 (some 9)) (some 5) = false
      ∧ download_file (.resp 200 (some 9)) (some 5) false [] 4 true = ⟨false, some 5, 0⟩) := by
  refine ⟨⟨by decide, ?_⟩, ⟨by decide, ?_⟩⟩
  · exact (c5_preexisting_file (.resp 200 (some 9)) 9 true [] 4).1 (by decide)
  · exact (c5_preexisting_file (.resp 200 (some 9)) 5 true [] 4).2.2.1 (by decide)

/-- C7: save_failed_downloads writes the report exactly when the failure
list is nonempty, and an empty failure list leaves the report file absent
whatever its prior state was. -/
theorem c7_save_failed_downloads (failed : List FailureRecord)
    (report : Option (List FailureRecord)) :
    (failed ≠ [] → save_failed_downloads failed report = some failed)
  ∧ (failed = [] → save_failed_downloads failed report = none) := by
  constructor
  · intro hne
    cases failed with
    | nil => exact absurd rfl hne
    | cons a t => simp [save_failed_downloads]
  · intro he
    subst he
    cases report with
    | none => simp [save_failed_downloads]
    | some c => simp [save_failed_downloads]

/-- Witness for C7: one failure record writes the report; an empty list
deletes a previously present report. -/
theorem c7_save_failed_downloads_witness :
    save_failed_downloads [mkFailureRecord 1998 1 1 0] (some []) =
      some [mkFailureRecord 1998 1 1 0]
  ∧ save_failed_downloads [] (some [mkFailureRecord 1998 1 1 0]) = none := by
  constructor
  · exact (c7_save_failed_downloads [mkFailureRecord 1998 1 1 0] (some [])).1 (by simp)
  · exact (c7_save_failed_downloads [] (some [mkFailureRecord 1998 1 1 0])).2 rfl

/-- C3: with no pre-existing local file and max_retries 3, a remote that
makes every GET attempt fail transiently (an exception or a non-2xx status
raised by raise_for_status, both the raised event) yields exactly 3
transfer attempts and false; a remote that answers 404 yields exactly 1
attempt and false with no retry. -/
theorem c3_retry_bound (headPre : HeadResult) (removeOk : Bool) (cs : Bool)
    (evs rest : List AttemptEv) :
    ((∀ ev ∈ evs, ∃ pw, ev = AttemptEv.raised pw) → 3 ≤ evs.length →
      (download_file headPre none removeOk evs 3 cs).attempts = 3
      ∧ (download_file headPre none removeOk evs 3 cs).ok = false)
  ∧ ((download_file headPre none removeOk (.notFound :: rest) 3 cs).attempts = 1
      ∧ (download_file headPre none removeOk (.notFound :: rest) 3 cs).ok = false) := by
  constructor
  · intro hall hlen
    match evs, hlen with
    | e1 :: e2 :: e3 :: t, _ =>
      obtain ⟨pw1, rfl⟩ := hall e1 (by simp)
      obtain ⟨pw2, rfl⟩ := hall e2 (by simp)
      obtain ⟨pw3, rfl⟩ := hall e3 (by simp)
      cases pw3 <;> simp [download_file, dlLoop]
  · simp [download_file, dlLoop]

/-- Witness for C3: three consecutive transport failures against an empty
local slot. -/
theorem c3_retry_bound_witness :
    (download_file .exn none true [.raised none, .raised none, .raised none] 3 true).attempts = 3
  ∧ (download_file .exn none true [.raised none, .raised none, .raised none] 3 true).ok
      = false :=
  (c3_retry_bound .exn true true [.raised none, .raised none, .raised none] []).1
    (by intro ev hev; fin_cases hev <;> exact ⟨none, rfl⟩) (by decide)

/-- Helper: a head satisfying headExact is exactly the successful response
reporting n bytes. -/
theorem headExact_eq (n : Nat) (h : HeadResult) (hh : headExact n h = true) :
    h = .resp 200 (some n) := by
  cases h with
  | exn => simp [headExact] at hh
  | resp s cl =>
    simp only [headExact, Bool.and_eq_true, decide_eq_true_eq] at hh
    rw [hh.1, hh.2]

/-- Helper: the integrity check against a successful HEAD reporting n
bytes holds exactly when the local file has n bytes. -/
theorem check_file_integrity_exact (n w : Nat) :
    check_file_integrity (.resp 200 (some n)) (some w) = decide (n = w) := by
  have h1 : ¬((n : Nat) : Int) = -1 := by omega
  by_cases h : n = w
  · simp [check_file_integrity, get_remote_file_size, h1, h]
  · have h2 : ((n : Nat) : Int) ≠ ((w : Nat) : Int) := by exact_mod_cast h
    simp [check_file_integrity, get_remote_file_size, h1, h, h2]

/-- Helper: when the verification HEAD of every streamed attempt reports
exactly n bytes, the retry loop can only report success with a final local
file of exactly n bytes. -/
theorem dlLoop_headExact (n mr : Nat) :
    ∀ (evs : List AttemptEv) (retries : Nat) (file : Option Nat) (att : Nat),
      evsHeadExact n evs = true →
      (dlLoop mr true evs retries file att).ok = true →
      (dlLoop mr true evs retries file att).finalLocal = some n := by
  intro evs
  induction evs with
  | nil =>
    intro retries file att _ hok
    simp [dlLoop] at hok
  | cons ev rest ih =>
    intro retries file att hex hok
    rw [evsHeadExact, List.all_cons, Bool.and_eq_true] at hex
    obtain ⟨hev, hrest⟩ := hex
    by_cases hr : retries < mr
    · cases ev with
      | notFound => simp [dlLoop, hr] at hok
      | raised pw =>
        simp only [dlLoop, if_pos hr] at hok ⊢
        by_cases hr2 : retries + 1 < mr
        · rw [if_pos hr2] at hok ⊢
          exact ih _ _ _ hrest hok
        · simp [if_neg hr2] at hok
      | streamed w head =>
        have hhead := headExact_eq n head hev
        subst hhead
        simp only [dlLoop, if_pos hr, if_pos trivial, check_file_integrity_exact,
          if_true] at hok ⊢
        by_cases hnw : n = w
        · subst hnw
          simp at hok ⊢
        · simp only [hnw, decide_False, Bool.false_eq_true, if_false] at hok ⊢
          by_cases hr2 : retries < mr - 1
          · rw [if_pos hr2] at hok ⊢
            exact ih _ _ _ hrest hok
          · simp [if_neg hr2] at hok
    · simp [dlLoop, hr] at hok

/-- C2 counterexample: the claim fails on the code as stated. With a
remote file of 100 bytes whose HEAD metadata request raises (a world
consistent with headTruthful), a pre-existing 50 byte local file passes
the optimistic integrity check, so download_file with check_size enabled
returns true while the local file size 50 differs from the remote size
100. -/
theorem c2_counterexample :
    headTruthful 100 .exn = true
  ∧ (download_file .exn (some 50) true [] 3 true).ok = true
  ∧ (download_file .exn (some 50) true [] 3 true).finalLocal = some 50
  ∧ (50 : Nat) ≠ 100 := by decide

/-- C2 amended: when every size metadata request consulted by the call
succeeds and reports the remote byte length n (the pre-download check and
the verification of every streamed attempt), download_file with check_size
enabled returning true implies the local file at the end has exactly n
bytes. -/
theorem c2_amended_size_verified (n : Nat) (headPre : HeadResult) (localSize : Option Nat)
    (removeOk : Bool) (evs : List AttemptEv) (mr : Nat)
    (hpre : headExact n headPre = true) (hevs : evsHeadExact n evs = true)
    (hok : (download_file headPre localSize removeOk evs mr true).ok = true) :
    (download_file headPre localSize removeOk evs mr true).finalLocal = some n := by
  cases localSize with
  | none => exact dlLoop_headExact n mr evs 0 none 0 hevs hok
  | some sz =>
    have hhead := headExact_eq n headPre hpre
    subst hhead
    simp only [download_file, check_file_integrity_exact, if_pos trivial] at hok ⊢
    by_cases hnsz : n = sz
    · subst hnsz
      simp
    · simp only [hnsz, decide_False, Bool.false_eq_true, if_false] at hok ⊢
      cases removeOk with
      | false => simp at hok
      | true =>
        simp only [if_pos rfl, if_true] at hok ⊢
        exact dlLoop_headExact n mr evs 0 none 0 hevs hok

/-- Witness for the amended C2: a clean download of 100 bytes verified by
a HEAD reporting 100 bytes. -/
theorem c2_amended_size_verified_witness :
    (download_file (.resp 200 (some 100)) none true
        [.streamed 100 (.resp 200 (some 100))] 3 true).ok = true
  ∧ (download_file (.resp 200 (some 100)) none true
        [.streamed 100 (.resp 200 (some 100))] 3 true).finalLocal = some 100 :=
  ⟨by decide,
    c2_amended_size_verified 100 (.resp 200 (some 100)) none true
      [.streamed 100 (.resp 200 (some 100))] 3 (by decide) (by decide) (by decide)⟩

/-- C8: the derived URL and local path are pure deterministic functions of
the four integers (two derivations agree), and the URL equals the fixed
base path followed by the zero padded template of the spec. -/
theorem c8_url_template (year month day hour : Nat) :
    file_url year month day hour = file_url year month day hour
  ∧ local_file_path year month day hour = local_file_path year month day hour
  ∧ file_url year month day hour = specTemplateURL year month day hour := by
  refine ⟨rfl, rfl, ?_⟩
  simp only [file_url, specTemplateURL, day_url, file_name, date_str, String.append_assoc]

/-- Helper: the fetch pass fold adds one success or appends exactly one
failure record per processed hour. -/
theorem fetchFold_eq (p : Nat → Bool) (mk : Nat → FailureRecord) :
    ∀ (l : List Nat) (n : Nat) (acc : List FailureRecord),
      l.foldl (fun a h => if p h then (a.1 + 1, a.2) else (a.1, a.2 ++ [mk h])) (n, acc)
        = (n + l.countP p, acc ++ (l.filter (fun h => !p h)).map mk) := by
  intro l
  induction l with
  | nil => intro n acc; simp
  | cons h t ih =>
    intro n acc
    simp only [List.foldl_cons]
    by_cases hp : p h
    · rw [if_pos hp, ih]
      have hc : (h :: t).countP p = t.countP p + 1 := by
        rw [List.countP_cons, if_pos hp]
      have hf : (h :: t).filter (fun x => !p x) = t.filter (fun x => !p x) := by
        simp [List.filter_cons, hp]
      rw [hc, hf, show n + (t.countP p + 1) = n + 1 + t.countP p from by omega]
    · rw [if_neg hp, ih]
      have hc : (h :: t).countP p = t.countP p := by
        simp [List.countP_cons, hp]
      have hf : (h :: t).filter (fun x => !p x) = h :: t.filter (fun x => !p x) := by
        simp [List.filter_cons, hp]
      rw [hc, hf]
      simp

/-- Helper: successes and failures of a predicate partition a list. -/
theorem countP_not_add (p : Nat → Bool) (l : List Nat) :
    l.countP p + l.countP (fun a => !p a) = l.length := by
  induction l with
  | nil => simp
  | cons h t ih =>
    by_cases hp : p h <;> simp [List.countP_cons, hp] <;> omega

/-- Helper: the fetch pass returns the success count over range 24 and one
failure record per failed hour, in hour order. -/
theorem fetchPass_eq (year month day : Nat) (fs : Nat → Option Nat)
    (headPre : Nat → HeadResult) (removeOk : Nat → Bool) (evs : Nat → List AttemptEv) :
    fetchPass year month day fs headPre removeOk evs
      = ((List.range 24).countP
            (fun hour =>
              (download_file (headPre hour) (fs hour) (removeOk hour) (evs hour) 3 true).ok),
          (((List.range 24).filter
            (fun hour =>
              !(download_file (headPre hour) (fs hour) (removeOk hour) (evs hour) 3 true).ok)).map
            (mkFailureRecord year month day))) := by
  rw [fetchPass, fetchFold_eq]
  simp

/-- C9: download_day splits the 24 hour slots into successes and failure
records, so successCount plus the number of failure records is 24, and the
failure records carry strictly increasing hour values. -/
theorem c9_download_day_outcome (year month day : Nat) (check_latest : Bool)
    (fs : Nat → Option Nat) (headCheck : Nat → HeadResult) (removeCheck : Nat → Bool)
    (headPre : Nat → HeadResult) (removeOk : Nat → Bool) (evs : Nat → List AttemptEv) :
    (download_day year month day check_latest fs headCheck removeCheck headPre removeOk evs).1
      + (download_day year month day check_latest fs headCheck removeCheck
          headPre removeOk evs).2.length = 24
  ∧ ((download_day year month day check_latest fs headCheck removeCheck
        headPre removeOk evs).2.map FailureRecord.hour).Pairwise (· < ·) := by
  rw [download_day, fetchPass_eq]
  constructor
  · simp only [List.length_map, ← List.countP_eq_length_filter]
    rw [countP_not_add]
    simp
  · rw [List.map_map]
    have hcomp : FailureRecord.hour ∘ mkFailureRecord year month day = fun h => h := rfl
    rw [hcomp]
    have := (List.pairwise_lt_range 24).filter
      (fun hour =>
        !(download_file (headPre hour)
            ((if check_latest then checkLatestPhase fs headCheck removeCheck else fs) hour)
            (removeOk hour) (evs hour) 3 true).ok)
    simpa using this

/-- C4 counterexample: the claim fails on the code when exactly one local
file exists. Hour 0 holds a 50 byte file and no other hour has one, the
HEAD for hour 0 reports 100 bytes so its integrity check fails, and
removal would succeed; the claim then demands the file be deleted before
the fetch pass, but the check latest phase of download_day leaves it in
place because the code runs the recheck only when at least two local
files exist. -/
theorem c4_counterexample :
    ((List.range 24).filter
        (fun h => ((fun h => if h = 0 then (some 50 : Option Nat) else none) h).isSome)) = [0]
  ∧ check_file_integrity (.resp 200 (some 100)) (some 50) = false
  ∧ checkLatestPhase (fun h => if h = 0 then (some 50 : Option Nat) else none)
      (fun _ => .resp 200 (some 100)) (fun _ => true) 0 = some 50 := by decide

/-- C4 amended: whenever at least two of the 24 local files of the day
exist, the check latest selection picks exactly 2 hours, all of whose
files exist, every unselected existing hour lies below every selected one,
each selected hour whose integrity check fails and whose removal succeeds
has its file deleted in the phase, unselected hours are untouched, and
download_day with check_latest enabled runs the fetch pass over the
filesystem produced by that phase. -/
theorem c4_amended_check_latest (fs : Nat → Option Nat) (headCheck : Nat → HeadResult)
    (removeCheck : Nat → Bool)
    (htwo : 2 ≤ ((List.range 24).filter (fun h => (fs h).isSome)).length) :
    (latestTwo fs).length = 2
  ∧ (∀ h ∈ latestTwo fs, (fs h).isSome = true)
  ∧ (∀ h ∈ latestTwo fs, ∀ g ∈ (List.range 24).filter (fun x => (fs x).isSome),
      g ∉ latestTwo fs → g < h)
  ∧ (∀ h ∈ latestTwo fs, check_file_integrity (headCheck h) (fs h) = false →
      removeCheck h = true → checkLatestPhase fs headCheck removeCheck h = none)
  ∧ (∀ h, h ∉ latestTwo fs → checkLatestPhase fs headCheck removeCheck h = fs h)
  ∧ (∀ year month day headPre removeOk evs,
      download_day year month day true fs headCheck removeCheck headPre removeOk evs
        = fetchPass year month day (checkLatestPhase fs headCheck removeCheck)
            headPre removeOk evs) := by
  have hlt : latestTwo fs
      = ((List.range 24).filter (fun h => (fs h).isSome)).reverse.take 2 := by
    rw [latestTwo, if_pos htwo]
  have hpair : ((List.range 24).filter (fun h => (fs h).isSome)).Pairwise (· < ·) :=
    (List.pairwise_lt_range 24).filter _
  have hrevpair :
      ((List.range 24).filter (fun h => (fs h).isSome)).reverse.Pairwise (fun a b => b < a) :=
    List.pairwise_reverse.mpr hpair
  refine ⟨?_, ?_, ?_, ?_, ?_, ?_⟩
  · rw [hlt, List.length_take, List.length_reverse]
    omega
  · intro h hmem
    rw [hlt] at hmem
    have : h ∈ ((List.range 24).filter (fun h => (fs h).isSome)).reverse :=
      (List.take_sublist 2 _).subset hmem
    exact (List.mem_filter.mp (List.mem_reverse.mp this)).2
  · intro h hmem g hg hgnot
    rw [hlt] at hmem hgnot
    have hgrev : g ∈ ((List.range 24).filter (fun h => (fs h).isSome)).reverse :=
      List.mem_reverse.mpr hg
    rw [← List.take_append_drop 2 ((List.range 24).filter (fun h => (fs h).isSome)).reverse]
      at hgrev hrevpair
    rcases List.mem_append.mp hgrev with hcase | hcase
    · exact absurd hcase hgnot
    · exact (List.pairwise_append.mp hrevpair).2.2 h hmem g hcase
  · intro h hmem hchk hrm
    simp [checkLatestPhase, List.contains, List.elem_iff, hmem, hchk, hrm]
  · intro h hnot
    simp [checkLatestPhase, List.contains, List.elem_iff, hnot]
  · intro year month day headPre removeOk evs
    rfl

/-- Witness for the amended C4: hours 0 and 1 hold 50 byte files, both are
selected, and hour 1 fails its check against a HEAD reporting 100 bytes
and loses its file in the phase. -/
theorem c4_amended_check_latest_witness :
    checkLatestPhase (fun h => if h ≤ 1 then (some 50 : Option Nat) else none)
      (fun _ => .resp 200 (some 100)) (fun _ => true) 1 = none :=
  ((c4_amended_check_latest (fun h => if h ≤ 1 then (some 50 : Option Nat) else none)
      (fun _ => .resp 200 (some 100)) (fun _ => true) (by decide)).2.2.2.1) 1 (by decide)
    (by decide) rfl

/-- Helper: the length of a filterMap counts the elements mapped to some. -/
theorem length_filterMap_eq_countP {α β : Type} (f : α → Option β) (l : List α) :
    (l.filterMap f).length = l.countP (fun a => (f a).isSome) := by
  induction l with
  | nil => rfl
  | cons h t ih =>
    rw [List.filterMap_cons]
    cases hf : f h with
    | none => simp [List.countP_cons, hf, ih]
    | some b => simp [List.countP_cons, hf, ih]

/-- Helper: a disjunction of predicates that never hold together counts as
the sum of the separate counts. -/
theorem countP_or_disjoint {α : Type} (p q : α → Bool) (l : List α)
    (hd : ∀ x ∈ l, ¬(p x = true ∧ q x = true)) :
    l.countP (fun x => p x || q x) = l.countP p + l.countP q := by
  induction l with
  | nil => rfl
  | cons h t ih =>
    have hdt : ∀ x ∈ t, ¬(p x = true ∧ q x = true) :=
      fun x hx => hd x (List.mem_cons_of_mem _ hx)
    by_cases hp : p h
    · have hq : ¬q h = true := fun hqt => hd h (List.mem_cons_self _ _) ⟨hp, hqt⟩
      simp [List.countP_cons, hp, hq, ih hdt]
      omega
    · by_cases hq : q h
      · simp [List.countP_cons, hp, hq, ih hdt]
        omega
      · simp [List.countP_cons, hp, hq, ih hdt]

/-- Helper: the per-day scan reports one entry per absent slot and one per
present slot failing the integrity check. -/
theorem scanDay_length (d : Date) (fs : Nat → Option Nat) (heads : Nat → HeadResult) :
    (scanDay d fs heads true).length
      = (List.range 24).countP (fun h => (fs h).isNone)
        + (List.range 24).countP
            (fun h => (fs h).isSome && !check_file_integrity (heads h) (fs h)) := by
  rw [scanDay, length_filterMap_eq_countP, ← countP_or_disjoint]
  · apply List.countP_congr
    intro h _
    cases hfs : fs h with
    | none => simp [hfs]
    | some sz =>
      by_cases hchk : check_file_integrity (heads h) (some sz) <;> simp [hfs, hchk]
  · intro x _ hx
    obtain ⟨h1, h2⟩ := hx
    cases hfs : fs x <;> rw [hfs] at h1 h2 <;> simp at h1 h2

/-- Helper: unfolding of the completeness scan over one more day. -/
theorem check_data_completeness_cons (d : Date) (t : List Date)
    (fs : Date → Nat → Option Nat) (heads : Date → Nat → HeadResult) (v : Bool) :
    check_data_completeness (d :: t) fs heads v
      = if (scanDay d (fs d) (heads d) v).isEmpty
        then check_data_completeness t fs heads v
        else ⟨dashDate d.year d.month d.day, scanDay d (fs d) (heads d) v⟩
              :: check_data_completeness t fs heads v := by
  simp only [check_data_completeness, List.filterMap_cons]
  by_cases he : (scanDay d (fs d) (heads d) v).isEmpty
  · simp [he]
  · simp [he]

/-- C6: over any visited day list, the completeness scan with verify_size
enabled reports exactly (number of absent slots) plus (number of present
slots failing the integrity check) entries; every reported entry is tagged
missing exactly when its slot is absent and invalid_size exactly when
present but failing the check; present and valid slots are never reported;
and every day report consists of the per-day scan entries and is kept only
when nonempty. The embedding returns only the report value, so the scan
mutates neither the filesystem nor remote state by construction. -/
theorem c6_completeness_scan (days : List Date) (fs : Date → Nat → Option Nat)
    (heads : Date → Nat → HeadResult) :
    ((check_data_completeness days fs heads true).map
        (fun dr => dr.missing_hours.length)).sum
      = (days.map (fun d => (List.range 24).countP (fun h => (fs d h).isNone))).sum
        + (days.map (fun d => (List.range 24).countP
            (fun h => (fs d h).isSome && !check_file_integrity (heads d h) (fs d h)))).sum
  ∧ (∀ d ∈ days, ∀ e ∈ scanDay d (fs d) (heads d) true,
      (e.reason = "missing" ∧ fs d e.hour = none)
      ∨ (e.reason = "invalid_size" ∧ (fs d e.hour).isSome = true
          ∧ check_file_integrity (heads d e.hour) (fs d e.hour) = false))
  ∧ (∀ d ∈ days, ∀ h : Nat, (fs d h).isSome = true →
      check_file_integrity (heads d h) (fs d h) = true →
      ∀ e ∈ scanDay d (fs d) (heads d) true, e.hour ≠ h)
  ∧ (∀ dr ∈ check_data_completeness days fs heads true, ∃ d ∈ days,
      dr.missing_hours = scanDay d (fs d) (heads d) true ∧ dr.missing_hours ≠ []) := by
  refine ⟨?_, ?_, ?_, ?_⟩
  · induction days with
    | nil => rfl
    | cons d t ih =>
      have hday := scanDay_length d (fs d) (heads d)
      rw [check_data_completeness_cons]
      by_cases he : (scanDay d (fs d) (heads d) true).isEmpty
      · have h0 : (scanDay d (fs d) (heads d) true).length = 0 := by
          rw [List.isEmpty_iff.mp he]
          rfl
        rw [if_pos he]
        simp only [List.map_cons, List.sum_cons]
        omega
      · rw [if_neg he]
        simp only [List.map_cons, List.sum_cons]
        omega
  · intro d _ e he
    rw [scanDay] at he
    obtain ⟨h, _, heq⟩ := List.mem_filterMap.mp he
    by_cases hex : (fs d h).isSome
    · by_cases hchk : check_file_integrity (heads d h) (fs d h)
      · simp [hex, hchk] at heq
      · right
        simp only [hex, hchk, Bool.and_true, Bool.not_false, Bool.not_true,
          Bool.false_or, if_true, Option.some.injEq] at heq
        rw [← heq]
        exact ⟨rfl, hex, by simpa using hchk⟩
    · left
      have hnone : fs d h = none := Option.not_isSome_iff_eq_none.mp hex
      simp only [hnone, Option.isSome_none, Bool.not_false, Bool.false_and,
        Bool.true_or, if_true, Option.some.injEq] at heq
      rw [← heq]
      exact ⟨rfl, hnone⟩
  · intro d _ h hsome hchk e he
    rw [scanDay] at he
    obtain ⟨g, _, heq⟩ := List.mem_filterMap.mp he
    by_cases hgh : g = h
    · subst hgh
      simp [hsome, hchk] at heq
    · by_cases hex : (fs d g).isSome
      · by_cases hc : check_file_integrity (heads d g) (fs d g)
        · simp [hex, hc] at heq
        · simp only [hex, hc, Bool.and_true, Bool.not_false, Bool.not_true,
            Bool.false_or, if_true, Option.some.injEq] at heq
          rw [← heq]
          exact hgh
      · have hnone : fs d g = none := Option.not_isSome_iff_eq_none.mp hex
        simp only [hnone, Option.isSome_none, Bool.not_false, Bool.false_and,
          Bool.true_or, if_true, Option.some.injEq] at heq
        rw [← heq]
        exact hgh
  · intro dr hdr
    obtain ⟨d, hd, heq⟩ := List.mem_filterMap.mp hdr
    by_cases he : (scanDay d (fs d) (heads d) true).isEmpty
    · rw [if_pos he] at heq
      exact absurd heq (by simp)
    · rw [if_neg he, Option.some.injEq] at heq
      refine ⟨d, hd, ?_, ?_⟩
      · rw [← heq]
      · rw [← heq]
        intro hnil
        exact he (List.isEmpty_iff.mpr hnil)

/-- Witness for C6: one day, a 50 byte file at hour 0 against a HEAD
reporting 100 bytes; the tagging disjunction holds at the hour 0 entry of
the scan of that day. -/
theorem c6_completeness_scan_witness :
    ((SlotEntry.mk 0 (file_url 1998 1 1 0) (local_file_path 1998 1 1 0)
        "invalid_size").reason = "missing"
      ∧ (fun _ => fun h => if h = 0 then (some 50 : Option Nat) else none)
          (Date.mk 1998 1 1)
          ((SlotEntry.mk 0 (file_url 1998 1 1 0) (local_file_path 1998 1 1 0)
            "invalid_size").hour) = none)
    ∨ ((SlotEntry.mk 0 (file_url 1998 1 1 0) (local_file_path 1998 1 1 0)
        "invalid_size").reason = "invalid_size"
      ∧ ((fun _ => fun h => if h = 0 then (some 50 : Option Nat) else none)
          (Date.mk 1998 1 1)
          ((SlotEntry.mk 0 (file_url 1998 1 1 0) (local_file_path 1998 1 1 0)
            "invalid_size").hour)).isSome = true
      ∧ check_file_integrity
          ((fun _ => fun _ => HeadResult.resp 200 (some 100)) (Date.mk 1998 1 1)
            ((SlotEntry.mk 0 (file_url 1998 1 1 0) (local_file_path 1998 1 1 0)
              "invalid_size").hour))
          ((fun _ => fun h => if h = 0 then (some 50 : Option Nat) else none)
            (Date.mk 1998 1 1)
            ((SlotEntry.mk 0 (file_url 1998 1 1 0) (local_file_path 1998 1 1 0)
              "invalid_size").hour)) = false) :=
  (c6_completeness_scan [⟨1998, 1, 1⟩]
      (fun _ => fun h => if h = 0 then (some 50 : Option Nat) else none)
      (fun _ => fun _ => HeadResult.resp 200 (some 100))).2.1 ⟨1998, 1, 1⟩ (by simp)
    (SlotEntry.mk 0 (file_url 1998 1 1 0) (local_file_path 1998 1 1 0) "invalid_size")
    (List.mem_filterMap.mpr ⟨0, by simp, rfl⟩)

end Cmorph
